import Mathlib

/-!
Verification of the product-export pipeline (warranty database to Shopify).

This file gives a shallow embedding, in Lean, of the pure computational core
of the repository: variant assembly and deduplication (data_transformer.py),
the dynamic-attribute classifier (variant_mapper.py), the image path locator
(s3_client.py), filename validation (image_validator.py), the run-scoped
image cache (image_handler.py), the retry engine (error_handler.py), the
rate limiter (rate_limiter.py) and variant-image association
(image_uploader.py).

Machine floats that the Python code obtains from `float(...)` are modelled
exactly as decimal rationals `mant / 10 ^ scale` (structure `PyNum`); the
modelled parser covers plain decimal literals (sign, digits, optional
fraction), which is the shape of every value reaching these call sites.
Formatting with f-strings `{x:.1f}` / `{x:.2f}` is modelled as decimal
rounding half to even, which agrees with CPython on the short decimal
inputs of this pipeline (their float images are compared and formatted
monotonically).  Time quantities in the retry engine and the rate limiter
are modelled as rationals.
-/

/-- Value of a list of decimal digit characters, most significant first. -/
def digitsToNat (l : List Char) : Nat :=
  l.foldl (fun acc c => 10 * acc + (c.toNat - 48)) 0

/-- Exact decimal value of a parsed Python float literal:
`mant / 10 ^ scale`.  Kept unnormalized so that all arithmetic on it is
kernel-computable. -/
structure PyNum where
  mant : Int
  scale : Nat
deriving DecidableEq

/-- Comparison of the represented values: `a.mant / 10 ^ a.scale ≤
b.mant / 10 ^ b.scale`, cleared of denominators. -/
def pyLe (a b : PyNum) : Bool :=
  decide (a.mant * (10 : Int) ^ b.scale ≤ b.mant * (10 : Int) ^ a.scale)

/-- Model of the Python builtin `float(s)` on plain decimal literals:
optional surrounding whitespace, optional sign, then `d+`, `d+.d*` or
`.d+`.  Returns none where `float` raises ValueError.  (Exponent and
inf/nan forms never occur at the modelled call sites and are mapped to
none.) -/
def pyFloat (s : String) : Option PyNum :=
  let l0 := (s.toList.dropWhile Char.isWhitespace).reverse.dropWhile Char.isWhitespace |>.reverse
  let sgn : Int := match l0 with
    | '-' :: _ => -1
    | _ => 1
  let l := match l0 with
    | '-' :: t => t
    | '+' :: t => t
    | _ => l0
  let ip := l.takeWhile Char.isDigit
  let rest := l.drop ip.length
  match rest with
  | [] => if ip.isEmpty then none else some ⟨sgn * (digitsToNat ip : Int), 0⟩
  | '.' :: fpart =>
    let fp := fpart.takeWhile Char.isDigit
    if fp.length ≠ fpart.length then none
    else if ip.isEmpty && fp.isEmpty then none
    else some ⟨sgn * (digitsToNat (ip ++ fp) : Int), fp.length⟩
  | _ => none

/-- Left-pad a string of digits with zeros to a given width. -/
def padZeros (width : Nat) (s : String) : String :=
  String.mk (List.replicate (width - s.length) '0') ++ s

/-- Model of the Python f-string format `{x:.ndf}`: fixed-point with `nd`
decimals, rounding half to even. -/
def formatFixed (nd : Nat) (x : PyNum) : String :=
  let D : Int := (10 : Int) ^ x.scale
  let scaledNum : Int := x.mant * (10 : Int) ^ nd
  let fl : Int := Int.fdiv scaledNum D
  let rr : Int := Int.fmod scaledNum D
  let n : Int :=
    if D < 2 * rr then fl + 1
    else if 2 * rr < D then fl
    else if fl % 2 = 0 then fl else fl + 1
  let m := n.natAbs
  let ip := m / 10 ^ nd
  let fp := m % 10 ^ nd
  (if n < 0 then "-" else "") ++ toString ip ++
    (if nd = 0 then "" else "." ++ padZeros nd (toString fp))

/-- Helper for `titleStr`: the Boolean records whether the previous
character was alphabetic. -/
def titleAux : Bool → List Char → List Char
  | _, [] => []
  | prevAlpha, c :: t =>
    if c.isAlpha then
      (if prevAlpha then c.toLower else c.toUpper) :: titleAux true t
    else
      c :: titleAux false t

/-- Model of the Python `str.title()`: the first alphabetic character of
each run is upper-cased, following alphabetic characters are lower-cased. -/
def titleStr (s : String) : String :=
  String.mk (titleAux false s.toList)

/-- Insert into a list in front of the first element not below `x`
(insertion step of the sort used to model the Python `sorted`). -/
def insertLe {α : Type} (le : α → α → Bool) (x : α) : List α → List α
  | [] => [x]
  | y :: t => if le x y then x :: y :: t else y :: insertLe le x t

/-- Insertion sort with a Boolean comparator, modelling the Python
builtin `sorted`. -/
def sortLe {α : Type} (le : α → α → Bool) (l : List α) : List α :=
  l.foldr (insertLe le) []

/-- Code-point lexicographic comparison on strings, as used by the Python
`sorted` on str. -/
def strLe (a b : String) : Bool := decide (a ≤ b)

/-- Add an element to the collected distinct-value list unless already
present; models insertion into a Python set (only the resulting
cardinality and sorted order are consumed downstream). -/
def addDistinct (l : List String) (x : String) : List String :=
  if x ∈ l then l else l ++ [x]

/-- Embedding of `S3Client.construct_s3_path` (s3_client.py:38-59): take
the first 6 characters of the Image_SKU (the whole SKU when shorter),
left-justify with zeros to width 6, split into three 2-character
segments, and join below the base directory. -/
def construct_s3_path (base_directory : String) (image_sku : String) : String :=
  let sku6 := if 6 ≤ image_sku.length then image_sku.toList.take 6 else image_sku.toList
  let padded := sku6 ++ List.replicate (6 - sku6.length) '0'
  let segment1 := String.mk (padded.take 2)
  let segment2 := String.mk ((padded.drop 2).take 2)
  let segment3 := String.mk ((padded.drop 4).take 2)
  base_directory ++ "/" ++ segment1 ++ "/" ++ segment2 ++ "/" ++ segment3 ++ "/"

/-- Locator as the spec words it (section 4.3): take the first 6
characters of the key, right-pad with zero characters if shorter, split
into three 2-character segments, join with the base directory.  Stated
separately from `construct_s3_path` so the code can be proved to refine
the spec. -/
def locateSpec (base_directory : String) (image_sku : String) : String :=
  let first6 := image_sku.toList.take 6
  let padded := first6 ++ List.replicate (6 - first6.length) '0'
  base_directory ++ "/" ++ String.mk (padded.take 2) ++ "/" ++
    String.mk ((padded.drop 2).take 2) ++ "/" ++ String.mk ((padded.drop 4).take 2) ++ "/"

/-- Row of the `nav_items` table as consumed by the mapping layer
(models/database_models.py).  The Python code reads fields with
`product.get(...)` and tests them for truthiness; a missing or NULL field
behaves exactly like the empty string there, so fields are modelled as
plain strings with "" for absent. -/
structure NavItem where
  No_ : String
  Item_Category_Code : String
  Ring_Size : String
  Metal_Stamp : String
  Metal_Color : String
  Metal_Code : String
  Stone_Weight__Carats_ : String
  Image_SKU : String
deriving DecidableEq

/-- Embedding of `VariantMapper._format_metal_type`
(variant_mapper.py:284-301). -/
def format_metal_type (metal_stamp metal_color metal_code : String) : String :=
  if metal_code = "14K" ∨ metal_code = "18K" ∨ metal_code = "10K" then
    metal_stamp ++ " " ++ titleStr metal_color ++ " Gold"
  else if metal_code = "SILVER" then
    titleStr metal_color ++ " Silver"
  else if metal_code = "PLAT" then
    "Platinum"
  else if metal_code = "TANTALUM" then
    if metal_color ≠ "" then "Tantalum " ++ titleStr metal_color else "Tantalum"
  else if metal_code = "TITANIUM" then
    if metal_color ≠ "" then "Titanium " ++ titleStr metal_color else "Titanium"
  else
    metal_stamp ++ " " ++ titleStr metal_color

/-- Distinct metal-type display values collected over a group
(variant_mapper.py:149-153); rows missing stamp or color are excluded. -/
def metalTypesOf (products : List NavItem) : List String :=
  products.foldl (fun acc p =>
    if p.Metal_Stamp ≠ "" ∧ p.Metal_Color ≠ "" then
      addDistinct acc (format_metal_type p.Metal_Stamp p.Metal_Color p.Metal_Code)
    else acc) []

/-- Distinct stone-weight display values collected over a group
(variant_mapper.py:155-162); non-numeric values are skipped by the
`except` clause. -/
def stoneWeightsOf (products : List NavItem) : List String :=
  products.foldl (fun acc p =>
    if p.Stone_Weight__Carats_ ≠ "" then
      match pyFloat p.Stone_Weight__Carats_ with
      | some w => addDistinct acc (formatFixed 2 w ++ " CTW")
      | none => acc
    else acc) []

/-- Distinct ring-size values collected over a group
(variant_mapper.py:164-170): normalized to one decimal when parseable,
kept verbatim via `str(...)` otherwise. -/
def ringSizesOf (products : List NavItem) : List String :=
  products.foldl (fun acc p =>
    if p.Ring_Size ≠ "" then
      addDistinct acc (match pyFloat p.Ring_Size with
        | some v => formatFixed 1 v
        | none => p.Ring_Size)
    else acc) []

/-- Embedding of `VariantMapper.get_dynamic_variant_attributes`
(variant_mapper.py:139-202).  The result is the insertion-ordered dict
of dynamic attributes; `none` models the uncaught ValueError raised at
line 196 by `sorted([float(size) for size in ring_sizes])` when some
collected ring size does not parse as a float. -/
def get_dynamic_variant_attributes (products : List NavItem) :
    Option (List (String × List String)) :=
  let stone_weights := stoneWeightsOf products
  let metal_types := metalTypesOf products
  let ring_sizes := ringSizesOf products
  let base :=
    (if 1 < stone_weights.length then [("Carat Weight", sortLe strLe stone_weights)] else [])
    ++ (if 1 < metal_types.length then [("Metal Type", sortLe strLe metal_types)] else [])
  if 1 < ring_sizes.length then
    match ring_sizes.mapM pyFloat with
    | some vs => some (base ++ [("Size", (sortLe pyLe vs).map (formatFixed 1))])
    | none => none
  else some base

/-- One appended option-value record `{"optionName": ..., "name": ...}`. -/
structure OptionValue where
  optionName : String
  name : String
deriving DecidableEq

/-- Shopify-facing variant record as assembled by the transformer.  Its
`optionValues` are the ones written by `_apply_dynamic_attributes`
(data_transformer.py:121 overwrites wholesale the values produced
earlier by `VariantMapper.map_variant`, so the embedding constructs the
variant with the applied values directly; `sku` and `price` come from
`map_variant`, variant_mapper.py:27-31). -/
structure Variant where
  sku : String
  price : String
  optionValues : List OptionValue
deriving DecidableEq

/-- Option value contributed by one dynamic attribute name for one row;
models one arm of the `for attr_name ... if/elif` chain of
`DataTransformer._apply_dynamic_attributes` (data_transformer.py:81-119). -/
def optionValueFor (p : NavItem) (attrName : String) : Option OptionValue :=
  if attrName = "Size" ∧ p.Ring_Size ≠ "" then
    some ⟨"Size", match pyFloat p.Ring_Size with
      | some v => formatFixed 1 v
      | none => p.Ring_Size⟩
  else if attrName = "Metal Type" ∧ p.Metal_Stamp ≠ "" ∧ p.Metal_Color ≠ "" then
    some ⟨"Metal Type", format_metal_type p.Metal_Stamp p.Metal_Color p.Metal_Code⟩
  else if attrName = "Carat Weight" ∧ p.Stone_Weight__Carats_ ≠ "" then
    (pyFloat p.Stone_Weight__Carats_).map (fun w => ⟨"Carat Weight", formatFixed 2 w ++ " CTW"⟩)
  else
    none

/-- Embedding of `DataTransformer._apply_dynamic_attributes`
(data_transformer.py:77-122): iterate the dynamic attributes in their
dict order and collect the option values the row can supply. -/
def apply_dynamic_attributes (p : NavItem)
    (dynamic_attributes : List (String × List String)) : List OptionValue :=
  dynamic_attributes.filterMap (fun a => optionValueFor p a.1)

/-- Variant built for one row: `map_variant` followed by
`_apply_dynamic_attributes` (data_transformer.py:49-54). -/
def map_variant_applied (dynamic_attributes : List (String × List String))
    (p : NavItem) : Variant :=
  { sku := p.No_, price := "0.00",
    optionValues := apply_dynamic_attributes p dynamic_attributes }

/-- CombinationKey of a variant: the sorted list of
"optionName:name" tokens (data_transformer.py:58). -/
def combinationKey (option_values : List OptionValue) : List String :=
  sortLe strLe (option_values.map (fun opt => opt.optionName ++ ":" ++ opt.name))

/-- Embedding of the variant loop of `DataTransformer.transform_group_data`
(data_transformer.py:45-65): build the variant of each row in order,
keep it only when its CombinationKey has not been seen, else drop it. -/
def transform_variants (products : List NavItem)
    (dynamic_attributes : List (String × List String)) : List Variant :=
  (products.foldl (fun (acc : List Variant × List (List String)) p =>
    let variant := map_variant_applied dynamic_attributes p
    let ck := combinationKey variant.optionValues
    if ck ∈ acc.2 then acc else (acc.1 ++ [variant], acc.2 ++ [ck]))
    ([], [])).1

/-- Retention policy as the spec words it: keep a variant exactly when
its CombinationKey was not produced by any earlier kept variant (first
occurrence wins).  Stated separately from `transform_variants` so the
fold of the code can be proved to refine it. -/
def keepFirstByKey (seen : List (List String)) : List Variant → List Variant
  | [] => []
  | v :: t =>
    if combinationKey v.optionValues ∈ seen then keepFirstByKey seen t
    else v :: keepFirstByKey (seen ++ [combinationKey v.optionValues]) t

/-- One final product option record (name, 1-indexed position, value
names), the shape built by `_create_product_options`. -/
structure ProductOption where
  name : String
  position : Nat
  values : List String
deriving DecidableEq

/-- Embedding of `DataTransformer._create_product_options`
(data_transformer.py:124-142); `enumerate(..., 1)` makes positions
1-indexed in dict order. -/
def create_product_options (dynamic_attributes : List (String × List String)) :
    List ProductOption :=
  dynamic_attributes.enum.map (fun ia => ⟨ia.2.1, ia.1 + 1, ia.2.2⟩)

/-- Transformed product as consumed by `validate_shopify_data`; a
metafield is modelled by the list of field names present on it. -/
structure ShopifyProduct where
  title : String
  variants : List Variant
  metafields : List (List String)
deriving DecidableEq

/-- Embedding of `DataTransformer.validate_shopify_data`
(data_transformer.py:144-170). -/
def validate_shopify_data (shopify_data : ShopifyProduct) : List String :=
  (if shopify_data.title = "" then ["Product title is required"] else [])
  ++ (if shopify_data.variants = [] then ["At least one variant is required"] else [])
  ++ (shopify_data.variants.enum.flatMap (fun iv =>
        (if iv.2.sku = "" then ["Variant " ++ toString iv.1 ++ ": SKU is required"] else [])
        ++ (if iv.2.optionValues = [] then
              ["Variant " ++ toString iv.1 ++ ": Option values are required"] else [])))
  ++ (shopify_data.metafields.enum.flatMap (fun im =>
        (["namespace", "key", "type", "value"].filter (fun f => ¬ f ∈ im.2)).map
          (fun f => "Metafield " ++ toString im.1 ++ ": " ++ f ++ " is required")))

/-- Gate before submission in `GroupIDProcessor._process_single_group_id`
(group_id_processor.py:63-77): the group proceeds to
`create_or_update_product` exactly when validation returned no errors,
otherwise a ValueError aborts the group. -/
def proceeds_to_submission (shopify_data : ShopifyProduct) : Bool :=
  validate_shopify_data shopify_data = []

/-- Character class of the regex `\w` restricted to ASCII (filenames at
these call sites are ASCII). -/
def isWordChar (c : Char) : Bool := c.isAlphanum || c = '_'

/-- Matcher for the anchored regex tail `-\d+\.\w+$`, applied to the
characters following the variation suffix in
`ImageValidator.validate_filename` (image_validator.py:36).  The
quantified pieces here are deterministic: the digit run is maximal and
is followed by the literal dot, the word run must reach the end. -/
def tailMatch : List Char → Bool
  | [] => false
  | c :: r =>
    (c = '-') &&
      (let ds := r.takeWhile Char.isDigit
       !ds.isEmpty &&
        (match r.drop ds.length with
         | c2 :: w => (c2 = '.') && (!w.isEmpty && w.all isWordChar)
         | [] => false))

/-- Backtracking search for the capture group of
`(\d+){suffix}-\d+\.\w+$`: the greedy `\d+` first tries the maximal run
of `k` digits, then shorter runs; the first length whose remainder
matches wins and its digits are the capture.  `rest` are the characters
after `{key}-`. -/
def capSearch (suffix : List Char) (rest : List Char) : Nat → Option Nat
  | 0 => none
  | k + 1 =>
    if suffix.isPrefixOf (rest.drop (k + 1))
        && tailMatch ((rest.drop (k + 1)).drop suffix.length) then
      some (digitsToNat (rest.take (k + 1)))
    else
      capSearch suffix rest k

/-- Capture of the pattern `^(\d+){suffix}-\d+\.\w+$` against the part
of the filename after `{key}-`. -/
def patternCapture (suffix : List Char) (rest : List Char) : Option Nat :=
  capSearch suffix rest (rest.takeWhile Char.isDigit).length

/-- Embedding of `ImageValidator.validate_filename`
(image_validator.py:23-38): `re.match` of
`^{re.escape(image_sku)}-(\d+){variation_suffix}-\d+\.\w+$`.  The
escaped key is matched literally; `$` is modelled as end of string (no
trailing-newline forms occur here). -/
def validate_filename (variation_suffix : String) (filename image_sku : String) : Bool :=
  let f := filename.toList
  let k := image_sku.toList
  (k ++ ['-']).isPrefixOf f
    && (patternCapture variation_suffix.toList (f.drop (k.length + 1))).isSome

/-- Attempt of the regex `-(\d+){suffix}-` at the current position: a
dash, then the greedy digit run (longest first), then the suffix and a
dash.  `r` are the characters after the leading dash. -/
def varAt (sufDash : List Char) (r : List Char) : Nat → Option Nat
  | 0 => none
  | k + 1 =>
    if sufDash.isPrefixOf (r.drop (k + 1)) then some (digitsToNat (r.take (k + 1)))
    else varAt sufDash r k

/-- Embedding of `ImageValidator.extract_variation_number`
(image_validator.py:40-60): `re.search` of `-(\d+){variation_suffix}-`,
leftmost match, greedy digits; `int(...)` of the capture never fails on
a digit run. -/
def extract_variation_number_chars (suffix : List Char) : List Char → Option Nat
  | [] => none
  | c :: t =>
    match (if c = '-' then varAt (suffix ++ ['-']) t (t.takeWhile Char.isDigit).length
           else none) with
    | some n => some n
    | none => extract_variation_number_chars suffix t

/-- String-level wrapper of `extract_variation_number`. -/
def extract_variation_number (variation_suffix : String) (filename : String) : Option Nat :=
  extract_variation_number_chars variation_suffix.toList filename.toList

/-- Extension part of `os.path.splitext` on a bare filename: leading
dots never begin an extension; otherwise the extension starts at the
last dot. -/
def splitextExtension (f : List Char) : List Char :=
  let lead := f.takeWhile (fun c => c = '.')
  let rest := f.drop lead.length
  let revTail := rest.reverse.takeWhile (fun c => c ≠ '.')
  if revTail.length = rest.length then [] else '.' :: revTail.reverse

/-- Embedding of `ImageValidator.is_valid_image_type`
(image_validator.py:79-90): lower-case the filename, split off the
extension, test membership in the accepted list. -/
def is_valid_image_type (accepted_extensions : List String) (filename : String) : Bool :=
  let lower := filename.toList.map Char.toLower
  decide (String.mk (splitextExtension lower) ∈ accepted_extensions)

/-- Embedding of `ImageValidator.validate_image_sku_match`
(image_validator.py:92-106): the filename must start with exactly
`{image_sku}-`. -/
def validate_image_sku_match (filename image_sku : String) : Bool :=
  (image_sku.toList ++ ['-']).isPrefixOf filename.toList

/-- Filename-level acceptance of a candidate in
`S3Client.fetch_images_for_sku` (s3_client.py:189-212): the successive
`continue` filters on extension, key match, pattern and variation
number.  Returns the variation number of an accepted candidate.  (The
later metadata, dimension and URL stages are I/O and are past the scope
of the filename decision modelled here.) -/
def accept_filename (accepted_extensions : List String) (variation_suffix : String)
    (image_sku filename : String) : Option Nat :=
  if !is_valid_image_type accepted_extensions filename then none
  else if !validate_image_sku_match filename image_sku then none
  else if !validate_filename variation_suffix filename image_sku then none
  else extract_variation_number variation_suffix filename

/-- Accepted extensions of the default images configuration
(config_manager.py:91). -/
def defaultAcceptedExtensions : List String :=
  [".jpg", ".jpeg", ".png", ".gif", ".webp"]

/-- Image record as produced by the discovery pipeline
(models/image_data.py). -/
structure ImageData where
  image_sku : String
  variation_number : Nat
  s3_key : String
  filename : String
  url : String
  width : Option Nat
  height : Option Nat
  file_size : Option Nat
  content_type : Option String
deriving DecidableEq

/-- One structured missing-image log entry
(image_logger.log_missing_images call, image_handler.py:131-137):
group id, product SKU, image SKU, S3 path. -/
structure MissingImageEntry where
  group_id : String
  product_sku : String
  image_sku : String
  s3_path : String
deriving DecidableEq

/-- Run-scoped state of `ImageHandler`: the `image_cache` dict
(image_handler.py:24) and the appended missing-image log. -/
structure ImageHandlerState where
  image_cache : List (String × List ImageData)
  missing_log : List MissingImageEntry
deriving DecidableEq

/-- Lookup in the association-list model of a Python dict. -/
def cacheLookup : List (String × List ImageData) → String → Option (List ImageData)
  | [], _ => none
  | (k, v) :: t, key => if k = key then some v else cacheLookup t key

/-- Embedding of `ImageHandler._fetch_images_for_sku_cached`
(image_handler.py:102-142).  `fetch` abstracts
`S3Client.fetch_images_for_sku`; the Boolean of the result records
whether that underlying fetch was invoked. -/
def fetch_images_for_sku_cached (fetch : String → List ImageData)
    (base_directory : String) (st : ImageHandlerState)
    (image_sku group_id : String) (product_skus : List String) :
    List ImageData × ImageHandlerState × Bool :=
  match cacheLookup st.image_cache image_sku with
  | some images => (images, st, false)
  | none =>
    let images := fetch image_sku
    let log' :=
      if images = [] then
        st.missing_log ++ product_skus.map (fun product_sku =>
          ⟨group_id, product_sku, image_sku, construct_s3_path base_directory image_sku⟩)
      else st.missing_log
    (images, ⟨st.image_cache ++ [(image_sku, images)], log'⟩, true)

/-- Error classification of the retry engine (error_handler.py:10-18):
`RateLimitError` with its optional retry hint, `TemporaryError`, or any
other exception. -/
inductive OpError
  | rateLimit (retry_after : Option Int)
  | temporary
  | unexpected
deriving DecidableEq

/-- Outcome of one call of the wrapped operation. -/
inductive AttemptOutcome (α : Type)
  | ok (value : α)
  | err (e : OpError)
deriving DecidableEq

/-- Embedding of `ErrorHandler._calculate_delay` (error_handler.py:62-69).
The Python guard is `if retry_after:` — the hint is used only when it is
neither None nor 0.  `jitter_draw` models the value of
`random.uniform(0, 0.1)` drawn at this attempt. -/
def calculate_delay (base_delay : ℚ) (attempt : Nat) (retry_after : Option Int)
    (jitter_draw : ℚ) : ℚ :=
  match retry_after with
  | some r =>
    if r ≠ 0 then (r : ℚ)
    else base_delay * 2 ^ attempt + jitter_draw * (base_delay * 2 ^ attempt)
  | none => base_delay * 2 ^ attempt + jitter_draw * (base_delay * 2 ^ attempt)

/-- Loop of `ErrorHandler.execute_with_retry` (error_handler.py:36-60),
recursing on the number of retries still available:
`remaining = max_retries - attempt`, so `remaining = 0` is exactly the
re-raise condition `attempt == max_retries` of the code.  `operation k`
is the outcome of the wrapped operation on attempt `k` and `jitter k`
the random draw of that attempt.  The result carries the list of sleeps
performed, in order.  At `remaining = 0` every error is raised: a rate
limit or temporary error because the budget is exhausted, an unexpected
error because it is never retried. -/
def execute_with_retry_go {α : Type} (base_delay : ℚ)
    (operation : Nat → AttemptOutcome α) (jitter : Nat → ℚ) :
    Nat → Nat → Except OpError α × List ℚ
  | attempt, 0 =>
    (match operation attempt with
     | .ok v => .ok v
     | .err e => .error e, [])
  | attempt, remaining + 1 =>
    match operation attempt with
    | .ok v => (.ok v, [])
    | .err (.rateLimit ra) =>
      let d := calculate_delay base_delay attempt ra (jitter attempt)
      let rest := execute_with_retry_go base_delay operation jitter (attempt + 1) remaining
      (rest.1, d :: rest.2)
    | .err .temporary =>
      let d := calculate_delay base_delay attempt none (jitter attempt)
      let rest := execute_with_retry_go base_delay operation jitter (attempt + 1) remaining
      (rest.1, d :: rest.2)
    | .err .unexpected => (.error .unexpected, [])

/-- Tail of the retry loop from a given attempt index on. -/
def execute_with_retry_from {α : Type} (max_retries : Nat) (base_delay : ℚ)
    (operation : Nat → AttemptOutcome α) (jitter : Nat → ℚ) (attempt : Nat) :
    Except OpError α × List ℚ :=
  execute_with_retry_go base_delay operation jitter attempt (max_retries - attempt)

/-- Embedding of `ErrorHandler.execute_with_retry`, starting at attempt 0. -/
def execute_with_retry {α : Type} (max_retries : Nat) (base_delay : ℚ)
    (operation : Nat → AttemptOutcome α) (jitter : Nat → ℚ) :
    Except OpError α × List ℚ :=
  execute_with_retry_from max_retries base_delay operation jitter 0

/-- Embedding of `RateLimiter.wait_if_needed` (rate_limiter.py:16-25):
given the recorded last request time and the current clock, return the
sleep performed and the new recorded time (`time.time()` after the
sleep, i.e. `current_time` plus the sleep). -/
def wait_if_needed (requests_per_second : ℚ) (last_request_time current_time : ℚ) :
    ℚ × ℚ :=
  let time_since_last := current_time - last_request_time
  if time_since_last < 1 / requests_per_second then
    let sleep_time := 1 / requests_per_second - time_since_last
    (sleep_time, current_time + sleep_time)
  else
    (0, current_time)

/-- Remote interactions issued by `ShopifyManager.create_or_update_product`
and its callees, in program order. -/
inductive ApiEvent
  | rateWait
  | createCall
  | mediaUploadCall
  | publishCall
  | variantBindCall
deriving DecidableEq

/-- Whether an event is a remote submission (everything except the
limiter wait). -/
def isSubmission : ApiEvent → Bool
  | .rateWait => false
  | _ => true

/-- Trace of remote interactions of one `create_or_update_product` run
(shopify_manager.py:29-81): `wait_if_needed` once (line 31), then
`execute_with_retry` issuing `create_attempts ≥ 1` attempts of the
productSet mutation (line 37, error_handler.py:40), then — when the
mutation succeeded without user errors — the media upload when media is
present (line 49), the publish mutation (line 54), and one
variant-binding update per associated variant
(image_uploader.py:75,169).  No other call of the limiter occurs on
this path. -/
def create_or_update_product_trace (create_attempts : Nat) (has_media : Bool)
    (bind_count : Nat) (succeeded : Bool) : List ApiEvent :=
  [ApiEvent.rateWait] ++ List.replicate create_attempts ApiEvent.createCall
  ++ (if succeeded then
        (if has_media then [ApiEvent.mediaUploadCall] else [])
        ++ [ApiEvent.publishCall]
        ++ List.replicate bind_count ApiEvent.variantBindCall
      else [])

/-- Remote variant record returned by the productSet mutation, as read
by `associate_images_to_variants` (image_uploader.py:44-45). -/
structure RemoteVariant where
  id : String
  sku : String
deriving DecidableEq

/-- Model of the Python `int(s)` on a stripped decimal string: optional
sign then digits; none where `int` raises ValueError. -/
def pyInt (s : String) : Option Int :=
  let l0 := (s.toList.dropWhile Char.isWhitespace).reverse.dropWhile Char.isWhitespace |>.reverse
  let sgn : Int := match l0 with
    | '-' :: _ => -1
    | _ => 1
  let l := match l0 with
    | '-' :: t => t
    | '+' :: t => t
    | _ => l0
  if l.isEmpty || !l.all Char.isDigit then none
  else some (sgn * (digitsToNat l : Int))

/-- Split of a character list at the non-overlapping occurrences of a
separator, scanning left to right: the model of the Python
`str.split(sep)` for a nonempty separator.  The fuel is an upper bound
on the recursion depth; every step consumes at least one character, so
`l.length + 1` fuel always suffices. -/
def splitSepGo (sep : List Char) : Nat → List Char → List Char → List (List Char)
  | 0, l, acc => [acc.reverse ++ l]
  | fuel + 1, l, acc =>
    match l with
    | [] => [acc.reverse]
    | c :: t =>
      if sep ≠ [] ∧ sep.isPrefixOf l then
        acc.reverse :: splitSepGo sep fuel (l.drop sep.length) []
      else
        splitSepGo sep fuel t (c :: acc)

/-- Model of the Python `str.split(sep)` on strings, nonempty `sep`. -/
def splitSep (sep s : String) : List String :=
  (splitSepGo sep.toList (s.toList.length + 1) s.toList []).map String.mk

/-- Variation number parsed from a media label, modelling
`int(alt.split(' - Image ')[1])` guarded by `' - Image ' in alt`
(image_uploader.py:119-125); none where the guard fails or `int`
raises. -/
def parse_alt_variation (alt : String) : Option Int :=
  match splitSep " - Image " alt with
  | _ :: second :: _ => pyInt second
  | _ => none

/-- Assignment into the association-list model of a Python dict: later
assignments to the same key overwrite. -/
def assocSet : List (Int × String) → Int → String → List (Int × String)
  | [], k, v => [(k, v)]
  | (k', v') :: t, k, v =>
    if k' = k then (k, v) :: t else (k', v') :: assocSet t k v

/-- Lookup in the association-list model of a Python dict. -/
def assocGet : List (Int × String) → Int → Option String
  | [], _ => none
  | (k', v') :: t, k => if k' = k then some v' else assocGet t k

/-- Embedding of `ImageUploader._get_product_media_map`
(image_uploader.py:77-134): fold the media nodes, keying each media id
by the variation number parsed from its alt label; nodes whose label
does not parse are skipped.  A node is the pair (media id, alt label). -/
def get_product_media_map (media_nodes : List (String × String)) : List (Int × String) :=
  media_nodes.foldl (fun m node =>
    match parse_alt_variation node.2 with
    | some n => assocSet m n node.1
    | none => m) []

/-- Media id the code would match for a variation number, as the spec
reading predicts it: the id of the last media node whose label parses to
that number.  Stated separately so the fold of the code can be compared
with it. -/
def lastMediaWithVariation (media_nodes : List (String × String)) (n : Int) : Option String :=
  (media_nodes.reverse.find? (fun node => parse_alt_variation node.2 == some n)).map Prod.fst

/-- Choice of the record to bind (image_uploader.py:63-66): the record
with variation number 1, else the first record; none when the list is
empty. -/
def choose_primary (images : List ImageData) : Option ImageData :=
  match images with
  | [] => none
  | first :: _ =>
    match images.find? (fun img => img.variation_number = 1) with
    | some img => some img
    | none => some first

/-- String-keyed dict lookup. -/
def strAssocGet : List (String × String) → String → Option String
  | [], _ => none
  | (k', v') :: t, k => if k' = k then some v' else strAssocGet t k

/-- Lookup of the image list of an Image_SKU,
`image_data_map.get(image_sku, [])`. -/
def imgAssocGetD : List (String × List ImageData) → String → List ImageData
  | [], _ => []
  | (k', v') :: t, k => if k' = k then v' else imgAssocGetD t k

/-- Embedding of `ImageUploader.associate_images_to_variants`
(image_uploader.py:17-75).  The result is the list of issued
bind-image-to-variant updates (variant id, media id); a variant that
fails any lookup is skipped and contributes nothing, and nothing on this
path raises. -/
def associate_images_to_variants (media_nodes : List (String × String))
    (variants : List RemoteVariant)
    (image_sku_mapping : List (String × String))
    (image_data_map : List (String × List ImageData)) : List (String × String) :=
  let media_map := get_product_media_map media_nodes
  if media_map = [] then []
  else
    variants.foldl (fun acc variant =>
      if variant.sku = "" ∨ variant.id = "" then acc
      else
        match strAssocGet image_sku_mapping variant.sku with
        | none => acc
        | some image_sku =>
          if image_sku = "" then acc
          else
            match choose_primary (imgAssocGetD image_data_map image_sku) with
            | none => acc
            | some primary =>
              match assocGet media_map (primary.variation_number : Int) with
              | none => acc
              | some media_id => acc ++ [(variant.id, media_id)]) []

/-- Ring row with ring size "7" (witness fixture). -/
def rowSize7 : NavItem := ⟨"827748", "RING", "7", "", "", "", "", ""⟩

/-- Ring row with ring size "7.5" (witness fixture). -/
def rowSize75 : NavItem := ⟨"827753", "RING", "7.5", "", "", "", "", ""⟩

/-- Ring row with the unparseable ring size "N/A" (failing-input fixture). -/
def rowSizeNA : NavItem := ⟨"827760", "RING", "N/A", "", "", "", "", ""⟩

/-- Row yielding zero option values under an empty dynamic-attribute map
(fixture). -/
def rowBare1 : NavItem := ⟨"900001", "RING", "", "", "", "", "", ""⟩

/-- Second row yielding zero option values (fixture). -/
def rowBare2 : NavItem := ⟨"900002", "RING", "", "", "", "", "", ""⟩

/-- Operation returning a rate-limit error with the hint 0 on the first
attempt (fixture for the retry engine). -/
def opHintZero : Nat → AttemptOutcome Unit :=
  fun n => if n = 0 then .err (.rateLimit (some 0)) else .ok ()

/-- Operation raising a temporary error, then a rate-limit error with
hint 5, then succeeding (fixture for the retry engine). -/
def opMixed : Nat → AttemptOutcome Unit :=
  fun n => if n = 0 then .err .temporary
           else if n = 1 then .err (.rateLimit (some 5)) else .ok ()

/-- Operation that is always rate limited (fixture for budget
exhaustion). -/
def opAlwaysLimited : Nat → AttemptOutcome Unit :=
  fun _ => .err (.rateLimit (some 7))

/-- Image record of key "A", variation 1 (fixture). -/
def imgKeyA : ImageData := ⟨"A", 1, "kA", "A-1a-1.jpg", "uA", none, none, none, none⟩

/-- Image record of key "B", variation 1 (fixture). -/
def imgKeyB : ImageData := ⟨"B", 1, "kB", "B-1a-1.jpg", "uB", none, none, none, none⟩

/-- Media nodes of one product holding imagery of the two keys "A" and
"B" (fixture): both labels carry variation number 1. -/
def mixedMediaNodes : List (String × String) :=
  [("gidA", "A - Image 1"), ("gidB", "B - Image 1")]

/-- Returned remote variant (fixture). -/
def remoteVariant1 : RemoteVariant := ⟨"v1", "s1"⟩

/-- Row-to-image-key map binding SKU "s1" to key "A" (fixture). -/
def mappingS1A : List (String × String) := [("s1", "A")]

/-- Image data of the two keys (fixture). -/
def dataMapAB : List (String × List ImageData) := [("A", [imgKeyA]), ("B", [imgKeyB])]

/-- Helper: a list is a Boolean prefix of itself followed by anything. -/
theorem isPrefixOf_append_self (l t : List Char) : (l.isPrefixOf (l ++ t)) = true := by
  induction l with
  | nil => simp [List.isPrefixOf]
  | cons c cs ih => simp [List.isPrefixOf, ih]

/-- Helper: `takeWhile` over a block satisfying the predicate followed by
a failing character returns exactly the block. -/
theorem takeWhile_append_block (p : Char → Bool) (l : List Char) (c : Char) (t : List Char)
    (hl : l.all p = true) (hc : p c = false) :
    (l ++ c :: t).takeWhile p = l := by
  induction l with
  | nil => simp [List.takeWhile, hc]
  | cons a as ih =>
    simp only [List.all_cons, Bool.and_eq_true] at hl
    simp [List.takeWhile, hl.1, ih hl.2]

/-- Helper: a fresh key appended at the back of the cache is found when
the earlier entries miss. -/
theorem cacheLookup_append_self (l : List (String × List ImageData)) (k : String)
    (v : List ImageData) (h : cacheLookup l k = none) :
    cacheLookup (l ++ [(k, v)]) k = some v := by
  induction l with
  | nil => simp [cacheLookup]
  | cons e t ih =>
    by_cases he : e.1 = k
    · exfalso
      simp [cacheLookup, he] at h
    · simp only [cacheLookup] at h ⊢
      rw [if_neg he] at h ⊢
      exact ih h

/-- C5.  The S3 locator is the pure prefix-pad-split function of the
spec: `construct_s3_path` coincides with the spec-side `locateSpec` on
every base directory and key, and the two worked examples of the spec
hold: key "827749" with base "sorted-media" locates
"sorted-media/82/77/49/", and the short key "11" zero-pads to
"sorted-media/11/00/00/". -/
theorem c5_locator_pure_prefix_pad_split :
    (∀ base_directory image_sku,
        construct_s3_path base_directory image_sku = locateSpec base_directory image_sku)
    ∧ construct_s3_path "sorted-media" "827749" = "sorted-media/82/77/49/"
    ∧ construct_s3_path "sorted-media" "11" = "sorted-media/11/00/00/" := by
  refine ⟨fun b k => ?_, by decide, by decide⟩
  unfold construct_s3_path locateSpec
  by_cases h : 6 ≤ k.length
  · simp [h]
  · have hl6 : k.length ≤ 6 := by omega
    have hlen : k.data.length ≤ 6 := by
      have hh : k.data.length = k.length := rfl
      omega
    simp [h, List.take_of_length_le hlen, Nat.min_eq_right hl6]

/-- C4.  The run-scoped image cache makes the second fetch of a key a
pure cache hit: with any prior state, fetching a key and then fetching
it again performs the underlying list/fetch at most on the first call
(and then exactly when the key was not already cached), the second call
does not invoke it, returns the same record list, leaves the state
unchanged, and the cache holds the list after the first call. -/
theorem c4_image_cache_second_fetch_cached
    (fetch : String → List ImageData) (base_directory : String)
    (st : ImageHandlerState) (image_sku g1 g2 : String)
    (skus1 skus2 : List String) :
    (fetch_images_for_sku_cached fetch base_directory
        (fetch_images_for_sku_cached fetch base_directory st image_sku g1 skus1).2.1
        image_sku g2 skus2).2.2 = false
    ∧ (fetch_images_for_sku_cached fetch base_directory
        (fetch_images_for_sku_cached fetch base_directory st image_sku g1 skus1).2.1
        image_sku g2 skus2).1
      = (fetch_images_for_sku_cached fetch base_directory st image_sku g1 skus1).1
    ∧ (fetch_images_for_sku_cached fetch base_directory
        (fetch_images_for_sku_cached fetch base_directory st image_sku g1 skus1).2.1
        image_sku g2 skus2).2.1
      = (fetch_images_for_sku_cached fetch base_directory st image_sku g1 skus1).2.1
    ∧ ((fetch_images_for_sku_cached fetch base_directory st image_sku g1 skus1).2.2 = true
        ↔ cacheLookup st.image_cache image_sku = none)
    ∧ cacheLookup
        (fetch_images_for_sku_cached fetch base_directory st image_sku g1 skus1).2.1.image_cache
        image_sku
      = some (fetch_images_for_sku_cached fetch base_directory st image_sku g1 skus1).1 := by
  cases h : cacheLookup st.image_cache image_sku with
  | some images =>
    simp [fetch_images_for_sku_cached, h]
  | none =>
    have hlook : cacheLookup (st.image_cache ++ [(image_sku, fetch image_sku)]) image_sku
        = some (fetch image_sku) := cacheLookup_append_self _ _ _ h
    simp [fetch_images_for_sku_cached, h, hlook]

/-- Helper: the seen-set fold of the variant loop computes the
first-occurrence filter. -/
theorem foldl_keepFirstByKey (l : List Variant) :
    ∀ (acc : List Variant) (seen : List (List String)),
    (l.foldl (fun (a : List Variant × List (List String)) v =>
        if combinationKey v.optionValues ∈ a.2 then a
        else (a.1 ++ [v], a.2 ++ [combinationKey v.optionValues])) (acc, seen)).1
      = acc ++ keepFirstByKey seen l := by
  induction l with
  | nil => intro acc seen; simp [keepFirstByKey]
  | cons v t ih =>
    intro acc seen
    by_cases h : combinationKey v.optionValues ∈ seen
    · simp only [List.foldl_cons, if_pos h, keepFirstByKey, ih]
    · simp only [List.foldl_cons, if_neg h, keepFirstByKey, ih, List.append_assoc,
        List.singleton_append]

/-- Helper: kept variants carry keys outside the seen set and pairwise
distinct keys. -/
theorem keepFirstByKey_fresh_and_pairwise (l : List Variant) :
    ∀ seen : List (List String),
    (∀ v ∈ keepFirstByKey seen l, combinationKey v.optionValues ∉ seen)
    ∧ (keepFirstByKey seen l).Pairwise
        (fun a b => combinationKey a.optionValues ≠ combinationKey b.optionValues) := by
  induction l with
  | nil => intro seen; simp [keepFirstByKey]
  | cons v t ih =>
    intro seen
    by_cases h : combinationKey v.optionValues ∈ seen
    · simpa [keepFirstByKey, h] using ih seen
    · refine ⟨?_, ?_⟩
      · intro w hw
        simp only [keepFirstByKey, if_neg h, List.mem_cons] at hw
        rcases hw with rfl | hw
        · exact h
        · have := (ih (seen ++ [combinationKey v.optionValues])).1 w hw
          intro hmem
          exact this (by simp [hmem])
      · simp only [keepFirstByKey, if_neg h]
        refine List.Pairwise.cons ?_ (ih (seen ++ [combinationKey v.optionValues])).2
        intro w hw
        have := (ih (seen ++ [combinationKey v.optionValues])).1 w hw
        intro heq
        exact this (by simp [heq])

/-- Helper: the variant loop equals the first-occurrence filter of the
per-row variants. -/
theorem transform_variants_eq_keepFirst (products : List NavItem)
    (dynamic_attributes : List (String × List String)) :
    transform_variants products dynamic_attributes
      = keepFirstByKey [] (products.map (map_variant_applied dynamic_attributes)) := by
  unfold transform_variants
  rw [← List.foldl_map (map_variant_applied dynamic_attributes)
    (fun (a : List Variant × List (List String)) v =>
      if combinationKey v.optionValues ∈ a.2 then a
      else (a.1 ++ [v], a.2 ++ [combinationKey v.optionValues])) products (([], []))]
  rw [foldl_keepFirstByKey]
  simp

/-- C1.  Variant deduplication in `transform_group_data`: the retained
variants of a group have pairwise-distinct CombinationKeys, and the
retained list is exactly the first-occurrence filter of the per-row
variants (whenever two rows produce the same key, the earlier row's
variant is kept and every later one is dropped). -/
theorem c1_retained_variants_distinct_keys_first_wins
    (products : List NavItem) (dynamic_attributes : List (String × List String)) :
    (transform_variants products dynamic_attributes).Pairwise
      (fun a b => combinationKey a.optionValues ≠ combinationKey b.optionValues)
    ∧ transform_variants products dynamic_attributes
      = keepFirstByKey [] (products.map (map_variant_applied dynamic_attributes)) := by
  refine ⟨?_, transform_variants_eq_keepFirst products dynamic_attributes⟩
  rw [transform_variants_eq_keepFirst]
  exact (keepFirstByKey_fresh_and_pairwise _ []).2

/-- Helper: insertion never produces the empty list. -/
theorem insertLe_ne_nil {α : Type} (le : α → α → Bool) (x : α) (l : List α) :
    insertLe le x l ≠ [] := by
  cases l with
  | nil => simp [insertLe]
  | cons y t =>
    unfold insertLe
    by_cases h : le x y = true
    · simp [h]
    · simp [h]

/-- Helper: the sort is empty exactly on the empty list. -/
theorem sortLe_eq_nil_iff {α : Type} (le : α → α → Bool) (l : List α) :
    sortLe le l = [] ↔ l = [] := by
  cases l with
  | nil => simp [sortLe]
  | cons x t =>
    simp only [sortLe, List.foldr_cons]
    constructor
    · intro h
      exact absurd h (insertLe_ne_nil le x _)
    · intro h
      exact absurd h (by simp)

/-- Helper: a CombinationKey is empty exactly for an empty option-value
list. -/
theorem combinationKey_eq_nil_iff (option_values : List OptionValue) :
    combinationKey option_values = [] ↔ option_values = [] := by
  unfold combinationKey
  rw [sortLe_eq_nil_iff]
  simp

/-- Helper: once the empty key is seen, no kept variant has empty option
values. -/
theorem keepFirstByKey_countP_empty_zero (l : List Variant) :
    ∀ seen, [] ∈ seen →
    (keepFirstByKey seen l).countP (fun v => v.optionValues.isEmpty) = 0 := by
  induction l with
  | nil => intro seen _; simp [keepFirstByKey]
  | cons v t ih =>
    intro seen hseen
    by_cases h : combinationKey v.optionValues ∈ seen
    · simp only [keepFirstByKey, if_pos h]
      exact ih seen hseen
    · simp only [keepFirstByKey, if_neg h, List.countP_cons]
      have hv : v.optionValues.isEmpty = false := by
        cases hov : v.optionValues with
        | nil =>
          exfalso
          apply h
          rw [(combinationKey_eq_nil_iff v.optionValues).2 hov]
          exact hseen
        | cons a b => simp [hov]
      rw [hv]
      simp only [if_neg (by simp : ¬(false = true)), Nat.add_zero]
      exact ih _ (by simp [hseen])

/-- Helper: at most one kept variant has empty option values. -/
theorem keepFirstByKey_countP_empty_le_one (l : List Variant) :
    ∀ seen, (keepFirstByKey seen l).countP (fun v => v.optionValues.isEmpty) ≤ 1 := by
  induction l with
  | nil => intro seen; simp [keepFirstByKey]
  | cons v t ih =>
    intro seen
    by_cases h : combinationKey v.optionValues ∈ seen
    · simp only [keepFirstByKey, if_pos h]
      exact ih seen
    · simp only [keepFirstByKey, if_neg h, List.countP_cons]
      cases hov : v.optionValues with
      | nil =>
        have hck : combinationKey ([] : List OptionValue) = [] :=
          (combinationKey_eq_nil_iff []).2 rfl
        have hz := keepFirstByKey_countP_empty_zero t
          (seen ++ [combinationKey ([] : List OptionValue)]) (by rw [hck]; simp)
        rw [hz]
        simp
      | cons a b =>
        simp only [List.isEmpty_cons, Bool.false_eq_true, if_false, Nat.add_zero]
        exact ih _

/-- Helper: when some listed variant has empty option values and the
empty key is fresh, exactly one kept variant has empty option values. -/
theorem keepFirstByKey_countP_empty_eq_one (l : List Variant) :
    ∀ seen, [] ∉ seen → (∃ v ∈ l, v.optionValues = []) →
    (keepFirstByKey seen l).countP (fun v => v.optionValues.isEmpty) = 1 := by
  induction l with
  | nil => intro seen _ hex; simp at hex
  | cons v t ih =>
    intro seen hfresh hex
    by_cases h : combinationKey v.optionValues ∈ seen
    · simp only [keepFirstByKey, if_pos h]
      apply ih seen hfresh
      rcases hex with ⟨w, hw, hwempty⟩
      rcases List.mem_cons.1 hw with rfl | hwt
      · exfalso
        apply hfresh
        rw [← (combinationKey_eq_nil_iff w.optionValues).2 hwempty]
        exact h
      · exact ⟨w, hwt, hwempty⟩
    · simp only [keepFirstByKey, if_neg h, List.countP_cons]
      cases hov : v.optionValues with
      | nil =>
        have hck : combinationKey ([] : List OptionValue) = [] :=
          (combinationKey_eq_nil_iff []).2 rfl
        have hz := keepFirstByKey_countP_empty_zero t
          (seen ++ [combinationKey ([] : List OptionValue)]) (by rw [hck]; simp)
        rw [hz]
        simp
      | cons a b =>
        simp only [List.isEmpty_cons, Bool.false_eq_true, if_false, Nat.add_zero]
        apply ih
        · intro hmem
          rcases List.mem_append.1 hmem with hl | hr
          · exact hfresh hl
          · have hq : combinationKey (a :: b) = [] := (List.mem_singleton.1 hr).symm
            rw [combinationKey_eq_nil_iff] at hq
            exact absurd hq (by simp)
        · rcases hex with ⟨w, hw, hwempty⟩
          rcases List.mem_cons.1 hw with rfl | hwt
          · rw [hwempty] at hov
            exact absurd hov (by simp)
          · exact ⟨w, hwt, hwempty⟩

/-- Helper: a variant with empty option values is flagged by output
validation. -/
theorem validate_flags_empty_option_values (shopify_data : ShopifyProduct)
    (i : Nat) (h : i < shopify_data.variants.length)
    (hov : (shopify_data.variants.get ⟨i, h⟩).optionValues = []) :
    ("Variant " ++ toString i ++ ": Option values are required")
      ∈ validate_shopify_data shopify_data := by
  unfold validate_shopify_data
  have h2 : i < shopify_data.variants.enum.length := by simp [List.enum_length, h]
  have h3 : shopify_data.variants.enum.get ⟨i, h2⟩
      = (i, shopify_data.variants.get ⟨i, h⟩) := by
    simp [List.getElem_enum]
  have hmem : (i, shopify_data.variants.get ⟨i, h⟩) ∈ shopify_data.variants.enum := by
    rw [← h3]
    exact shopify_data.variants.enum.get_mem i h2
  refine List.mem_append.2 (Or.inl (List.mem_append.2 (Or.inr ?_)))
  refine List.mem_flatMap.2 ⟨(i, shopify_data.variants.get ⟨i, h⟩), hmem, ?_⟩
  refine List.mem_append.2 (Or.inr ?_)
  rw [hov]
  simp

/-- C10.  Zero-option rows: an empty CombinationKey arises exactly from
an empty option-value list, so every zero-option variant of a group
shares the one empty key and at most one such variant survives
deduplication (exactly one as soon as some row produces zero option
values); and any retained zero-option variant is flagged by output
validation with an "Option values are required" error, which blocks the
group's submission. -/
theorem c10_zero_option_variants (products : List NavItem)
    (dynamic_attributes : List (String × List String)) (shopify_data : ShopifyProduct) :
    (∀ option_values : List OptionValue,
        combinationKey option_values = [] ↔ option_values = [])
    ∧ (transform_variants products dynamic_attributes).countP
        (fun v => v.optionValues.isEmpty) ≤ 1
    ∧ ((∃ p ∈ products, apply_dynamic_attributes p dynamic_attributes = []) →
        (transform_variants products dynamic_attributes).countP
          (fun v => v.optionValues.isEmpty) = 1)
    ∧ (∀ i (h : i < shopify_data.variants.length),
        (shopify_data.variants.get ⟨i, h⟩).optionValues = [] →
        ("Variant " ++ toString i ++ ": Option values are required")
          ∈ validate_shopify_data shopify_data
        ∧ proceeds_to_submission shopify_data = false) := by
  refine ⟨combinationKey_eq_nil_iff, ?_, ?_, ?_⟩
  · rw [transform_variants_eq_keepFirst]
    exact keepFirstByKey_countP_empty_le_one _ []
  · intro hex
    rw [transform_variants_eq_keepFirst]
    apply keepFirstByKey_countP_empty_eq_one _ [] (by simp)
    rcases hex with ⟨p, hp, happ⟩
    exact ⟨map_variant_applied dynamic_attributes p, List.mem_map_of_mem _ hp, happ⟩
  · intro i h hov
    have hflag := validate_flags_empty_option_values shopify_data i h hov
    refine ⟨hflag, ?_⟩
    unfold proceeds_to_submission
    have hne : validate_shopify_data shopify_data ≠ [] := List.ne_nil_of_mem hflag
    simp [hne]

/-- C10 witness: two rows that both yield zero option values under an
empty dynamic-attribute map produce exactly one retained zero-option
variant, and a product holding that variant is flagged and blocked. -/
theorem c10_zero_option_variants_witness :
    (transform_variants [rowBare1, rowBare2] []).countP
      (fun v => v.optionValues.isEmpty) = 1
    ∧ ("Variant " ++ toString 0 ++ ": Option values are required")
      ∈ validate_shopify_data ⟨"T", [⟨"900001", "0.00", []⟩], []⟩
    ∧ proceeds_to_submission ⟨"T", [⟨"900001", "0.00", []⟩], []⟩ = false := by
  refine ⟨(c10_zero_option_variants [rowBare1, rowBare2] [] ⟨"T", [⟨"900001", "0.00", []⟩], []⟩).2.2.1
      ⟨rowBare1, by decide, by decide⟩, ?_, ?_⟩
  · exact ((c10_zero_option_variants [rowBare1, rowBare2] [] ⟨"T", [⟨"900001", "0.00", []⟩], []⟩).2.2.2
      0 (by decide) (by decide)).1
  · exact ((c10_zero_option_variants [rowBare1, rowBare2] [] ⟨"T", [⟨"900001", "0.00", []⟩], []⟩).2.2.2
      0 (by decide) (by decide)).2

/-- Helper: the attribute names of the classifier output, when it
returns, are the priority-ordered names of its qualifying attributes. -/
theorem classifier_keys (products : List NavItem) (m : List (String × List String))
    (h : get_dynamic_variant_attributes products = some m) :
    m.map Prod.fst =
      (if 1 < (stoneWeightsOf products).length then ["Carat Weight"] else [])
      ++ (if 1 < (metalTypesOf products).length then ["Metal Type"] else [])
      ++ (if 1 < (ringSizesOf products).length then ["Size"] else []) := by
  simp only [get_dynamic_variant_attributes] at h
  by_cases h3 : 1 < (ringSizesOf products).length
  · simp only [if_pos h3] at h
    cases hm : (ringSizesOf products).mapM pyFloat with
    | none => rw [hm] at h; simp at h
    | some vs =>
      rw [hm] at h
      simp only [] at h
      have hmEq := Option.some.inj h
      subst hmEq
      simp only [if_pos h3]
      by_cases h1 : 1 < (stoneWeightsOf products).length
        <;> by_cases h2 : 1 < (metalTypesOf products).length
        <;> simp [h1, h2]
  · simp only [if_neg h3] at h
    have hmEq := Option.some.inj h
    subst hmEq
    simp only [if_neg h3]
    by_cases h1 : 1 < (stoneWeightsOf products).length
      <;> by_cases h2 : 1 < (metalTypesOf products).length
      <;> simp [h1, h2]

/-- C2.  Attribute classification: when the classifier returns, an
attribute name appears in its output exactly when the group-wide
distinct normalized value count of that attribute is at least 2; the
output order is a subsequence of the fixed priority order Carat Weight,
Metal Type, Size; and the final option list carries the attribute names
in that same order with 1-indexed positions 1, 2, ... -/
theorem c2_classifier_membership_order_positions (products : List NavItem)
    (m : List (String × List String))
    (h : get_dynamic_variant_attributes products = some m) :
    ("Carat Weight" ∈ m.map Prod.fst ↔ 2 ≤ (stoneWeightsOf products).length)
    ∧ ("Metal Type" ∈ m.map Prod.fst ↔ 2 ≤ (metalTypesOf products).length)
    ∧ ("Size" ∈ m.map Prod.fst ↔ 2 ≤ (ringSizesOf products).length)
    ∧ List.Sublist (m.map Prod.fst) ["Carat Weight", "Metal Type", "Size"]
    ∧ (create_product_options m).map ProductOption.name = m.map Prod.fst
    ∧ (create_product_options m).map ProductOption.position = List.range' 1 m.length := by
  have hk := classifier_keys products m h
  refine ⟨?_, ?_, ?_, ?_, ?_, ?_⟩
  · rw [hk]
    by_cases h1 : 1 < (stoneWeightsOf products).length
      <;> by_cases h2 : 1 < (metalTypesOf products).length
      <;> by_cases h3 : 1 < (ringSizesOf products).length
      <;> simp [h1, h2, h3]
      <;> omega
  · rw [hk]
    by_cases h1 : 1 < (stoneWeightsOf products).length
      <;> by_cases h2 : 1 < (metalTypesOf products).length
      <;> by_cases h3 : 1 < (ringSizesOf products).length
      <;> simp [h1, h2, h3]
      <;> omega
  · rw [hk]
    by_cases h1 : 1 < (stoneWeightsOf products).length
      <;> by_cases h2 : 1 < (metalTypesOf products).length
      <;> by_cases h3 : 1 < (ringSizesOf products).length
      <;> simp [h1, h2, h3]
      <;> omega
  · rw [hk]
    by_cases h1 : 1 < (stoneWeightsOf products).length
      <;> by_cases h2 : 1 < (metalTypesOf products).length
      <;> by_cases h3 : 1 < (ringSizesOf products).length
      <;> simp [h1, h2, h3]
  · unfold create_product_options
    rw [List.map_map]
    have hcomp : (ProductOption.name ∘ fun ia : Nat × (String × List String) =>
        (⟨ia.2.1, ia.1 + 1, ia.2.2⟩ : ProductOption)) = Prod.fst ∘ Prod.snd := rfl
    rw [hcomp, ← List.map_map, List.enum_map_snd]
  · unfold create_product_options
    rw [List.map_map]
    have hcomp : (ProductOption.position ∘ fun ia : Nat × (String × List String) =>
        (⟨ia.2.1, ia.1 + 1, ia.2.2⟩ : ProductOption)) = (fun i => i + 1) ∘ Prod.fst := rfl
    rw [hcomp, ← List.map_map, List.enum_map_fst, List.range'_eq_map_range]
    simp [Nat.add_comm]

/-- C2 witness: the group of the two ring rows with sizes "7" and "7.5"
classifies Size as its only dynamic attribute, and every conjunct of the
classifier theorem holds there. -/
theorem c2_classifier_membership_order_positions_witness :
    ("Carat Weight" ∈ ([("Size", ["7.0", "7.5"])].map Prod.fst)
        ↔ 2 ≤ (stoneWeightsOf [rowSize7, rowSize75]).length)
    ∧ ("Metal Type" ∈ ([("Size", ["7.0", "7.5"])].map Prod.fst)
        ↔ 2 ≤ (metalTypesOf [rowSize7, rowSize75]).length)
    ∧ ("Size" ∈ ([("Size", ["7.0", "7.5"])].map Prod.fst)
        ↔ 2 ≤ (ringSizesOf [rowSize7, rowSize75]).length)
    ∧ List.Sublist ([("Size", ["7.0", "7.5"])].map Prod.fst)
        ["Carat Weight", "Metal Type", "Size"]
    ∧ (create_product_options [("Size", ["7.0", "7.5"])]).map ProductOption.name
        = [("Size", ["7.0", "7.5"])].map Prod.fst
    ∧ (create_product_options [("Size", ["7.0", "7.5"])]).map ProductOption.position
        = List.range' 1 [("Size", ["7.0", "7.5"])].length :=
  c2_classifier_membership_order_positions [rowSize7, rowSize75]
    [("Size", ["7.0", "7.5"])] (by decide)

/-- C7.  Size normalization: per row, a parseable ring size is rendered
with one decimal and an unparseable one is used verbatim (the true part
of the claim, data_transformer.py:82-88); the group with ring sizes "7"
and "7.5" yields the dynamic Size values ["7.0", "7.5"]; but for a group
holding an unparseable ring size next to a distinct parseable one, the
classifier collects the raw string into its value set
(variant_mapper.py:170) and then crashes with an uncaught ValueError in
`sorted([float(size) for size in ring_sizes])`
(variant_mapper.py:196, modelled as `none`) instead of returning a
Size value set containing the raw string. -/
theorem c7_size_rawstring_classifier_valueerror :
    (∀ p : NavItem, p.Ring_Size ≠ "" → pyFloat p.Ring_Size = none →
        optionValueFor p "Size" = some ⟨"Size", p.Ring_Size⟩)
    ∧ (∀ (p : NavItem) (v : PyNum), p.Ring_Size ≠ "" → pyFloat p.Ring_Size = some v →
        optionValueFor p "Size" = some ⟨"Size", formatFixed 1 v⟩)
    ∧ get_dynamic_variant_attributes [rowSize7, rowSize75] = some [("Size", ["7.0", "7.5"])]
    ∧ "N/A" ∈ ringSizesOf [rowSize7, rowSizeNA]
    ∧ get_dynamic_variant_attributes [rowSize7, rowSizeNA] = none := by
  refine ⟨?_, ?_, by decide, by decide, by decide⟩
  · intro p hne hparse
    simp [optionValueFor, hne, hparse]
  · intro p v hne hparse
    simp [optionValueFor, hne, hparse]

/-- C7 witness: the per-row normalization conjuncts applied to the row
with the unparseable ring size "N/A" and to the row with the parseable
ring size "7". -/
theorem c7_size_rawstring_classifier_valueerror_witness :
    optionValueFor rowSizeNA "Size" = some ⟨"Size", "N/A"⟩
    ∧ optionValueFor rowSize7 "Size" = some ⟨"Size", formatFixed 1 ⟨7, 0⟩⟩ :=
  ⟨c7_size_rawstring_classifier_valueerror.1 rowSizeNA (by decide) (by decide),
   c7_size_rawstring_classifier_valueerror.2.1 rowSize7 ⟨7, 0⟩ (by decide) (by decide)⟩

/-- C3 (amended).  Retry engine: on a rate-limit error carrying a
nonzero hint, the sleep is exactly the hint and the loop proceeds to the
next attempt of the same budget; on a rate-limit error without hint and
on a temporary error, the sleep is `base_delay * 2 ^ attempt` plus the
jitter draw times that delay — nonnegative and at most 10% of the delay
when the draw lies in [0, 1/10]; at an exhausted budget the error of
the failing attempt is re-raised with no further sleep, the two
retryable kinds sharing the same attempt counter and bound; and an
unexpected error propagates immediately, uncounted, at any attempt. -/
theorem c3_retry_backoff_policy {α : Type} (max_retries : Nat) (base_delay : ℚ)
    (operation : Nat → AttemptOutcome α) (jitter : Nat → ℚ) (attempt : Nat)
    (r : Int) (ra : Option Int) :
    (operation attempt = .err (.rateLimit (some r)) → r ≠ 0 → attempt < max_retries →
      execute_with_retry_from max_retries base_delay operation jitter attempt
        = ((execute_with_retry_from max_retries base_delay operation jitter (attempt + 1)).1,
           (r : ℚ) ::
             (execute_with_retry_from max_retries base_delay operation jitter (attempt + 1)).2))
    ∧ ((operation attempt = .err (.rateLimit none) ∨ operation attempt = .err .temporary) →
        attempt < max_retries →
        execute_with_retry_from max_retries base_delay operation jitter attempt
          = ((execute_with_retry_from max_retries base_delay operation jitter (attempt + 1)).1,
             (base_delay * 2 ^ attempt + jitter attempt * (base_delay * 2 ^ attempt)) ::
               (execute_with_retry_from max_retries base_delay operation jitter (attempt + 1)).2))
    ∧ (0 ≤ base_delay → 0 ≤ jitter attempt → jitter attempt ≤ 1 / 10 →
        0 ≤ jitter attempt * (base_delay * 2 ^ attempt)
        ∧ jitter attempt * (base_delay * 2 ^ attempt) ≤ (base_delay * 2 ^ attempt) / 10)
    ∧ (max_retries ≤ attempt → operation attempt = .err (.rateLimit ra) →
        execute_with_retry_from max_retries base_delay operation jitter attempt
          = (.error (.rateLimit ra), []))
    ∧ (max_retries ≤ attempt → operation attempt = .err .temporary →
        execute_with_retry_from max_retries base_delay operation jitter attempt
          = (.error .temporary, []))
    ∧ (operation attempt = .err .unexpected →
        execute_with_retry_from max_retries base_delay operation jitter attempt
          = (.error .unexpected, [])) := by
  refine ⟨?_, ?_, ?_, ?_, ?_, ?_⟩
  · intro hop hr hlt
    have hk : max_retries - attempt = (max_retries - (attempt + 1)) + 1 := by omega
    unfold execute_with_retry_from
    rw [hk]
    simp [execute_with_retry_go, hop, calculate_delay, hr]
  · intro hor hlt
    have hk : max_retries - attempt = (max_retries - (attempt + 1)) + 1 := by omega
    unfold execute_with_retry_from
    rw [hk]
    rcases hor with hop | hop
    · simp [execute_with_retry_go, hop, calculate_delay]
    · simp [execute_with_retry_go, hop, calculate_delay]
  · intro hb hj0 hj1
    have hd : (0 : ℚ) ≤ base_delay * 2 ^ attempt :=
      mul_nonneg hb (pow_nonneg (by norm_num) attempt)
    refine ⟨mul_nonneg hj0 hd, ?_⟩
    calc jitter attempt * (base_delay * 2 ^ attempt)
        ≤ (1 / 10) * (base_delay * 2 ^ attempt) := mul_le_mul_of_nonneg_right hj1 hd
      _ = (base_delay * 2 ^ attempt) / 10 := by ring
  · intro hge hop
    have hk : max_retries - attempt = 0 := by omega
    unfold execute_with_retry_from
    rw [hk]
    simp [execute_with_retry_go, hop]
  · intro hge hop
    have hk : max_retries - attempt = 0 := by omega
    unfold execute_with_retry_from
    rw [hk]
    simp [execute_with_retry_go, hop]
  · intro hop
    unfold execute_with_retry_from
    cases hk : max_retries - attempt with
    | zero => simp [execute_with_retry_go, hop]
    | succ k => simp [execute_with_retry_go, hop]

/-- C3 witness: with base delay 1, zero jitter draws and a budget of 3,
the mixed operation sleeps exactly its hint 5 at attempt 1, sleeps the
backoff `1 * 2 ^ 0` for the temporary error at attempt 0, and the
always-limited operation re-raises its rate-limit error at the exhausted
attempt 3. -/
theorem c3_retry_backoff_policy_witness :
    execute_with_retry_from 3 1 opMixed (fun _ => 0) 1
      = ((execute_with_retry_from 3 1 opMixed (fun _ => 0) 2).1,
         ((5 : Int) : ℚ) :: (execute_with_retry_from 3 1 opMixed (fun _ => 0) 2).2)
    ∧ execute_with_retry_from 3 1 opMixed (fun _ => 0) 0
      = ((execute_with_retry_from 3 1 opMixed (fun _ => 0) 1).1,
         (1 * 2 ^ 0 + 0 * (1 * 2 ^ 0)) :: (execute_with_retry_from 3 1 opMixed (fun _ => 0) 1).2)
    ∧ execute_with_retry_from 3 1 opAlwaysLimited (fun _ => 0) 3
      = (.error (.rateLimit (some 7)), []) :=
  ⟨(c3_retry_backoff_policy 3 1 opMixed (fun _ => 0) 1 5 none).1
      (by decide) (by decide) (by decide),
   (c3_retry_backoff_policy 3 1 opMixed (fun _ => 0) 0 5 none).2.1
      (Or.inr (by decide)) (by decide),
   (c3_retry_backoff_policy 3 1 opAlwaysLimited (fun _ => 0) 3 5 (some 7)).2.2.2.1
      (by decide) (by decide)⟩

/-- C3 counterexample to the claim as stated: a rate-limit error
carrying the server hint 0 does not sleep exactly the hint — the guard
`if retry_after:` treats 0 like an absent hint, so the engine sleeps the
backoff delay 1 (base 1, attempt 0, zero jitter draw) instead of 0. -/
theorem c3_hint_zero_sleeps_backoff :
    opHintZero 0 = .err (.rateLimit (some 0))
    ∧ (execute_with_retry 3 1 opHintZero (fun _ => 0)).2 = [1]
    ∧ ((1 : ℚ) ≠ ((0 : Int) : ℚ)) := by
  refine ⟨by decide, ?_, by norm_num⟩
  norm_num [execute_with_retry, execute_with_retry_from, execute_with_retry_go,
    calculate_delay, opHintZero]

/-- C8 (amended).  Rate limiting: one `create_or_update_product` run
invokes the limiter exactly once, as its very first remote interaction,
before the first product-create attempt — retried create attempts, the
media upload, the publish call and the variant-binding updates follow
with no further limiter invocation; and the limiter itself, when
invoked, sleeps exactly enough that at least `1/requests_per_second`
elapses between the previously recorded request start and the moment it
returns (which it records as the new request start). -/
theorem c8_rate_limited_once_before_create (create_attempts : Nat) (has_media : Bool)
    (bind_count : Nat) (succeeded : Bool)
    (requests_per_second last_request_time current_time : ℚ) :
    (create_or_update_product_trace create_attempts has_media bind_count succeeded).head?
      = some ApiEvent.rateWait
    ∧ (create_or_update_product_trace create_attempts has_media bind_count succeeded).count
        ApiEvent.rateWait = 1
    ∧ (current_time - last_request_time < 1 / requests_per_second →
        (current_time
            + (wait_if_needed requests_per_second last_request_time current_time).1)
          - last_request_time = 1 / requests_per_second)
    ∧ (¬ current_time - last_request_time < 1 / requests_per_second →
        (wait_if_needed requests_per_second last_request_time current_time).1 = 0
        ∧ 1 / requests_per_second ≤ current_time - last_request_time)
    ∧ (wait_if_needed requests_per_second last_request_time current_time).2
      = current_time + (wait_if_needed requests_per_second last_request_time current_time).1 := by
  refine ⟨?_, ?_, ?_, ?_, ?_⟩
  · simp [create_or_update_product_trace]
  · cases has_media <;> cases succeeded <;>
      simp [create_or_update_product_trace, List.count_append, List.count_replicate,
        List.count_cons, List.count_nil]
  · intro hlt
    simp only [wait_if_needed, if_pos hlt]
    ring
  · intro hge
    refine ⟨?_, le_of_not_lt hge⟩
    simp only [wait_if_needed, if_neg hge]
  · simp only [wait_if_needed]
    by_cases hlt : current_time - last_request_time < 1 / requests_per_second
    · rw [if_pos hlt]
    · rw [if_neg hlt]
      simp

/-- C8 witness: the spacing conjuncts of the limiter theorem applied at
rate 2 with the last request recorded at 0 and the clock also at 0: the
sleep tops the elapsed time up to exactly 1/2. -/
theorem c8_rate_limited_once_before_create_witness :
    ((0 : ℚ) + (wait_if_needed 2 0 0).1) - 0 = 1 / 2
    ∧ (wait_if_needed 2 0 0).2 = (0 : ℚ) + (wait_if_needed 2 0 0).1 :=
  ⟨(c8_rate_limited_once_before_create 1 true 1 true 2 0 0).2.2.1 (by norm_num),
   (c8_rate_limited_once_before_create 1 true 1 true 2 0 0).2.2.2.2⟩

/-- C8 counterexample to the claim as stated: in the trace of a
successful run with media and one bound variant, the publish call (index
3) is immediately preceded by the media upload call, not by a limiter
wait — the limiter runs only once, at the start, before the
product-create attempt. -/
theorem c8_publish_not_preceded_by_wait :
    (create_or_update_product_trace 1 true 1 true)[3]? = some ApiEvent.publishCall
    ∧ isSubmission ApiEvent.publishCall = true
    ∧ (create_or_update_product_trace 1 true 1 true)[2]? = some ApiEvent.mediaUploadCall
    ∧ ApiEvent.mediaUploadCall ≠ ApiEvent.rateWait := by
  decide

/-- Helper: capture of the anchored pattern on a well-formed tail
`digits ++ "a" ++ "-" ++ digits ++ "." ++ wordchars`: the greedy first
digit run is the capture. -/
theorem patternCapture_decomposed (d1 d2 w : List Char)
    (hd1 : d1 ≠ []) (hd1d : d1.all Char.isDigit = true)
    (hd2 : d2 ≠ []) (hd2d : d2.all Char.isDigit = true)
    (hw : w ≠ []) (hww : w.all isWordChar = true) :
    patternCapture ['a'] (d1 ++ 'a' :: '-' :: (d2 ++ '.' :: w)) = some (digitsToNat d1) := by
  unfold patternCapture
  have htw : (d1 ++ 'a' :: '-' :: (d2 ++ '.' :: w)).takeWhile Char.isDigit = d1 :=
    takeWhile_append_block _ _ _ _ hd1d (by decide)
  rw [htw]
  cases hl : d1.length with
  | zero =>
    exact absurd (List.length_eq_zero.1 hl) hd1
  | succ k =>
    unfold capSearch
    have hdrop : (d1 ++ 'a' :: '-' :: (d2 ++ '.' :: w)).drop (k + 1)
        = 'a' :: '-' :: (d2 ++ '.' :: w) := by
      rw [← hl]
      exact List.drop_left _ _
    have htake : (d1 ++ 'a' :: '-' :: (d2 ++ '.' :: w)).take (k + 1) = d1 := by
      rw [← hl]
      exact List.take_left _ _
    have htw2 : (d2 ++ '.' :: w).takeWhile Char.isDigit = d2 :=
      takeWhile_append_block _ _ _ _ hd2d (by decide)
    have hdrop2 : (d2 ++ '.' :: w).drop d2.length = '.' :: w := List.drop_left _ _
    have htail : tailMatch ('-' :: (d2 ++ '.' :: w)) = true := by
      simp only [tailMatch, htw2, hdrop2]
      simp [hd2, hw, hww]
    rw [hdrop, htake]
    have hpre : List.isPrefixOf ['a'] ('a' :: '-' :: (d2 ++ '.' :: w)) = true := by
      simp [List.isPrefixOf]
    simp [hpre, htail]

/-- Helper: the leftmost-match search of `-(\d+)a-` on a filename whose
key part is all digits lands on the separator after the key and captures
the variation digits. -/
theorem extract_decomposed (k d1 d2 w : List Char)
    (hkd : k.all Char.isDigit = true)
    (hd1 : d1 ≠ []) (hd1d : d1.all Char.isDigit = true) :
    extract_variation_number_chars ['a'] (k ++ '-' :: (d1 ++ 'a' :: '-' :: (d2 ++ '.' :: w)))
      = some (digitsToNat d1) := by
  induction k with
  | nil =>
    simp only [List.nil_append]
    unfold extract_variation_number_chars
    have htw : (d1 ++ 'a' :: '-' :: (d2 ++ '.' :: w)).takeWhile Char.isDigit = d1 :=
      takeWhile_append_block _ _ _ _ hd1d (by decide)
    rw [if_pos rfl, htw]
    cases hl : d1.length with
    | zero => exact absurd (List.length_eq_zero.1 hl) hd1
    | succ kk =>
      unfold varAt
      have hdrop : (d1 ++ 'a' :: '-' :: (d2 ++ '.' :: w)).drop (kk + 1)
          = 'a' :: '-' :: (d2 ++ '.' :: w) := by
        rw [← hl]
        exact List.drop_left _ _
      have htake : (d1 ++ 'a' :: '-' :: (d2 ++ '.' :: w)).take (kk + 1) = d1 := by
        rw [← hl]
        exact List.take_left _ _
      have hpre : List.isPrefixOf (['a'] ++ ['-']) ('a' :: '-' :: (d2 ++ '.' :: w)) = true := by
        simp [List.isPrefixOf]
      rw [hdrop, htake]
      simp [hpre]
  | cons c kt ih =>
    simp only [List.all_cons, Bool.and_eq_true] at hkd
    have hcd : c.isDigit = true := hkd.1
    have hcne : ¬ (c = '-') := by
      intro hc
      rw [hc] at hcd
      exact absurd hcd (by decide)
    simp only [List.cons_append]
    unfold extract_variation_number_chars
    rw [if_neg hcne]
    exact ih hkd.2

/-- Helper: the filename regex accepts a well-formed
`{key}-{digits}a-{digits}.{wordchars}` name. -/
theorem validate_filename_decomposed (k d1 d2 w : List Char)
    (hd1 : d1 ≠ []) (hd1d : d1.all Char.isDigit = true)
    (hd2 : d2 ≠ []) (hd2d : d2.all Char.isDigit = true)
    (hw : w ≠ []) (hww : w.all isWordChar = true) :
    validate_filename "a"
      (String.mk ((k ++ ['-']) ++ (d1 ++ 'a' :: '-' :: (d2 ++ '.' :: w))))
      (String.mk k) = true := by
  have hcap := patternCapture_decomposed d1 d2 w hd1 hd1d hd2 hd2d hw hww
  have hpre := isPrefixOf_append_self (k ++ ['-']) (d1 ++ 'a' :: '-' :: (d2 ++ '.' :: w))
  have hlen : (k ++ ['-']).length = k.length + 1 := by simp
  have hdrop : ((k ++ ['-']) ++ (d1 ++ 'a' :: '-' :: (d2 ++ '.' :: w))).drop (k.length + 1)
      = d1 ++ 'a' :: '-' :: (d2 ++ '.' :: w) := by
    rw [← hlen]
    exact List.drop_left _ _
  unfold validate_filename
  show (((k ++ ['-']).isPrefixOf ((k ++ ['-']) ++ (d1 ++ 'a' :: '-' :: (d2 ++ '.' :: w))))
      && (patternCapture "a".toList
            (((k ++ ['-']) ++ (d1 ++ 'a' :: '-' :: (d2 ++ '.' :: w))).drop (k.length + 1))).isSome)
      = true
  rw [hpre, hdrop]
  rw [show "a".toList = ['a'] from rfl, hcap]
  rfl

/-- C6.  Filename validation: a candidate is accepted by the discovery
filters only when its extension is in the accepted set, it starts with
exactly `{key}-` and it matches the anchored variation pattern; on every
well-formed name `{digit-key}-{digits}a-{digits}.{wordchars}` the
pattern holds, its captured first digit run is the variation number, and
the separate `extract_variation_number` search returns that same number;
and the two worked examples hold: "1102192-1a-12345.jpg" is accepted for
key "1102192" with variation 1 while "1102193-1a-12345.jpg" is rejected
for that key. -/
theorem c6_filename_validation (accepted_extensions : List String)
    (variation_suffix : String) (image_sku filename : String) (n : Nat)
    (k d1 d2 w : List Char) :
    (accept_filename accepted_extensions variation_suffix image_sku filename = some n →
      is_valid_image_type accepted_extensions filename = true
      ∧ validate_image_sku_match filename image_sku = true
      ∧ validate_filename variation_suffix filename image_sku = true)
    ∧ (k.all Char.isDigit = true → d1 ≠ [] → d1.all Char.isDigit = true →
        d2 ≠ [] → d2.all Char.isDigit = true → w ≠ [] → w.all isWordChar = true →
        validate_filename "a"
          (String.mk ((k ++ ['-']) ++ (d1 ++ 'a' :: '-' :: (d2 ++ '.' :: w))))
          (String.mk k) = true
        ∧ validate_image_sku_match
            (String.mk ((k ++ ['-']) ++ (d1 ++ 'a' :: '-' :: (d2 ++ '.' :: w))))
            (String.mk k) = true
        ∧ patternCapture ['a'] (d1 ++ 'a' :: '-' :: (d2 ++ '.' :: w)) = some (digitsToNat d1)
        ∧ extract_variation_number "a"
            (String.mk ((k ++ ['-']) ++ (d1 ++ 'a' :: '-' :: (d2 ++ '.' :: w))))
          = some (digitsToNat d1))
    ∧ accept_filename defaultAcceptedExtensions "a" "1102192" "1102192-1a-12345.jpg" = some 1
    ∧ accept_filename defaultAcceptedExtensions "a" "1102192" "1102193-1a-12345.jpg" = none := by
  refine ⟨?_, ?_, by decide, by decide⟩
  · intro hacc
    cases hA : is_valid_image_type accepted_extensions filename with
    | false => simp [accept_filename, hA] at hacc
    | true =>
      cases hB : validate_image_sku_match filename image_sku with
      | false => simp [accept_filename, hA, hB] at hacc
      | true =>
        cases hC : validate_filename variation_suffix filename image_sku with
        | false => simp [accept_filename, hA, hB, hC] at hacc
        | true => exact ⟨rfl, rfl, rfl⟩
  · intro hkd hd1 hd1d hd2 hd2d hw hww
    refine ⟨validate_filename_decomposed k d1 d2 w hd1 hd1d hd2 hd2d hw hww, ?_,
      patternCapture_decomposed d1 d2 w hd1 hd1d hd2 hd2d hw hww, ?_⟩
    · unfold validate_image_sku_match
      exact isPrefixOf_append_self (k ++ ['-']) _
    · unfold extract_variation_number
      have hassoc : (k ++ ['-']) ++ (d1 ++ 'a' :: '-' :: (d2 ++ '.' :: w))
          = k ++ '-' :: (d1 ++ 'a' :: '-' :: (d2 ++ '.' :: w)) := by simp
      show extract_variation_number_chars "a".toList
          ((k ++ ['-']) ++ (d1 ++ 'a' :: '-' :: (d2 ++ '.' :: w))) = some (digitsToNat d1)
      rw [show "a".toList = ['a'] from rfl, hassoc]
      exact extract_decomposed k d1 d2 w hkd hd1 hd1d

/-- C6 witness: the necessary-condition conjunct applied to the accepted
example, and the well-formed-name conjunct applied to the decomposition
of that example. -/
theorem c6_filename_validation_witness :
    (is_valid_image_type defaultAcceptedExtensions "1102192-1a-12345.jpg" = true
      ∧ validate_image_sku_match "1102192-1a-12345.jpg" "1102192" = true
      ∧ validate_filename "a" "1102192-1a-12345.jpg" "1102192" = true)
    ∧ (validate_filename "a"
        (String.mk ((['1', '1', '0', '2', '1', '9', '2'] ++ ['-'])
          ++ (['1'] ++ 'a' :: '-' :: (['1', '2', '3', '4', '5'] ++ '.' :: ['j', 'p', 'g']))))
        (String.mk ['1', '1', '0', '2', '1', '9', '2']) = true
      ∧ validate_image_sku_match
          (String.mk ((['1', '1', '0', '2', '1', '9', '2'] ++ ['-'])
            ++ (['1'] ++ 'a' :: '-' :: (['1', '2', '3', '4', '5'] ++ '.' :: ['j', 'p', 'g']))))
          (String.mk ['1', '1', '0', '2', '1', '9', '2']) = true
      ∧ patternCapture ['a']
          (['1'] ++ 'a' :: '-' :: (['1', '2', '3', '4', '5'] ++ '.' :: ['j', 'p', 'g']))
        = some (digitsToNat ['1'])
      ∧ extract_variation_number "a"
          (String.mk ((['1', '1', '0', '2', '1', '9', '2'] ++ ['-'])
            ++ (['1'] ++ 'a' :: '-' :: (['1', '2', '3', '4', '5'] ++ '.' :: ['j', 'p', 'g']))))
        = some (digitsToNat ['1'])) :=
  ⟨(c6_filename_validation defaultAcceptedExtensions "a" "1102192" "1102192-1a-12345.jpg" 1
      ['1'] ['1'] ['1'] ['j']).1 (by decide),
   (c6_filename_validation defaultAcceptedExtensions "a" "1102192" "1102192-1a-12345.jpg" 1
      ['1', '1', '0', '2', '1', '9', '2'] ['1'] ['1', '2', '3', '4', '5'] ['j', 'p', 'g']).2.1
      (by decide) (by decide) (by decide) (by decide) (by decide) (by decide) (by decide)⟩
/-- Helper: lookup after a dict assignment. -/
theorem assocGet_assocSet (m : List (Int × String)) (k : Int) (v : String) (n : Int) :
    assocGet (assocSet m k v) n = if k = n then some v else assocGet m n := by
  induction m with
  | nil => simp [assocSet, assocGet]
  | cons e t ih =>
    rcases e with ⟨ek, ev⟩
    simp only [assocSet]
    by_cases h1 : ek = k
    · subst h1
      simp only [if_pos rfl, assocGet]
      by_cases h2 : ek = n <;> simp [h2]
    · rw [if_neg h1]
      simp only [assocGet]
      by_cases h2 : ek = n
      · subst h2
        have h3 : ¬ (k = ek) := fun hh => h1 hh.symm
        simp [h3]
      · simp [h2, ih]

/-- Helper: the media-map fold keyed by parsed variation number resolves
every lookup to the last node whose label parses to that number. -/
theorem media_map_fold (media_nodes : List (String × String)) :
    ∀ (m : List (Int × String)) (n : Int),
    assocGet (media_nodes.foldl (fun m node =>
        match parse_alt_variation node.2 with
        | some v => assocSet m v node.1
        | none => m) m) n
      = (match media_nodes.reverse.find?
            (fun node => parse_alt_variation node.2 == some n) with
         | some node => some node.1
         | none => assocGet m n) := by
  induction media_nodes with
  | nil => intro m n; simp
  | cons node t ih =>
    intro m n
    simp only [List.foldl_cons, List.reverse_cons]
    rw [ih, List.find?_append]
    cases hf : t.reverse.find? (fun nd => parse_alt_variation nd.2 == some n) with
    | some nd => simp [hf]
    | none =>
      cases hp : parse_alt_variation node.2 with
      | some v =>
        by_cases hv : v = n
        · have hb : (v == n) = true := by simp [hv]
          simp [hf, hp, List.find?, hb, assocGet_assocSet, hv]
        · have hb : (v == n) = false := by simp [hv]
          simp [hf, hp, List.find?, hb, assocGet_assocSet, hv]
      | none => simp [hf, hp, List.find?]

/-- Helper: the chosen record is a member, and is either a
variation-1 record or the first record of a list holding no variation-1
record. -/
theorem choose_primary_spec (images : List ImageData) (img : ImageData)
    (h : choose_primary images = some img) :
    img ∈ images
    ∧ (img.variation_number = 1
       ∨ (images.head? = some img ∧ ∀ i ∈ images, i.variation_number ≠ 1)) := by
  cases images with
  | nil => simp [choose_primary] at h
  | cons first rest =>
    simp only [choose_primary] at h
    cases hf : (first :: rest).find? (fun img => img.variation_number = 1) with
    | some i =>
      rw [hf] at h
      have himg : img = i := (Option.some.inj h).symm
      subst himg
      refine ⟨List.mem_of_find?_eq_some hf, Or.inl ?_⟩
      have := List.find?_some hf
      simpa using this
    | none =>
      rw [hf] at h
      have himg : img = first := (Option.some.inj h).symm
      subst himg
      refine ⟨List.mem_cons_self _ _, Or.inr ⟨rfl, ?_⟩⟩
      intro i hi
      have := List.find?_eq_none.1 hf i hi
      simpa using this

/-- Helper: one step of the association fold either keeps the
accumulator or emits a pair of the current variant id and a media id
found in the media map. -/
theorem associate_step_mem (media_map : List (Int × String))
    (image_sku_mapping : List (String × String))
    (image_data_map : List (String × List ImageData))
    (acc : List (String × String)) (variant : RemoteVariant) (pr : String × String)
    (hpr : pr ∈ (if variant.sku = "" ∨ variant.id = "" then acc
      else
        match strAssocGet image_sku_mapping variant.sku with
        | none => acc
        | some image_sku =>
          if image_sku = "" then acc
          else
            match choose_primary (imgAssocGetD image_data_map image_sku) with
            | none => acc
            | some primary =>
              match assocGet media_map (primary.variation_number : Int) with
              | none => acc
              | some media_id => acc ++ [(variant.id, media_id)])) :
    pr ∈ acc ∨ (pr.1 = variant.id ∧ ∃ num, assocGet media_map num = some pr.2) := by
  by_cases h1 : variant.sku = "" ∨ variant.id = ""
  · rw [if_pos h1] at hpr
    exact Or.inl hpr
  · rw [if_neg h1] at hpr
    cases hm : strAssocGet image_sku_mapping variant.sku with
    | none => simp only [hm] at hpr; exact Or.inl hpr
    | some image_sku =>
      simp only [hm] at hpr
      by_cases h2 : image_sku = ""
      · rw [if_pos h2] at hpr; exact Or.inl hpr
      · rw [if_neg h2] at hpr
        cases hcp : choose_primary (imgAssocGetD image_data_map image_sku) with
        | none => simp only [hcp] at hpr; exact Or.inl hpr
        | some primary =>
          simp only [hcp] at hpr
          cases hmg : assocGet media_map (primary.variation_number : Int) with
          | none => simp only [hmg] at hpr; exact Or.inl hpr
          | some media_id =>
            simp only [hmg] at hpr
            rcases List.mem_append.1 hpr with hin | hone
            · exact Or.inl hin
            · have heq : pr = (variant.id, media_id) := List.mem_singleton.1 hone
              subst heq
              exact Or.inr ⟨rfl, ⟨(primary.variation_number : Int), hmg⟩⟩

/-- Helper: every pair emitted by the association fold names a listed
variant and a media id found in the media map. -/
theorem associate_fold_mem (media_map : List (Int × String))
    (image_sku_mapping : List (String × String))
    (image_data_map : List (String × List ImageData)) :
    ∀ (variants : List RemoteVariant) (acc : List (String × String)) (pr : String × String),
    pr ∈ variants.foldl (fun acc variant =>
      if variant.sku = "" ∨ variant.id = "" then acc
      else
        match strAssocGet image_sku_mapping variant.sku with
        | none => acc
        | some image_sku =>
          if image_sku = "" then acc
          else
            match choose_primary (imgAssocGetD image_data_map image_sku) with
            | none => acc
            | some primary =>
              match assocGet media_map (primary.variation_number : Int) with
              | none => acc
              | some media_id => acc ++ [(variant.id, media_id)]) acc →
    pr ∈ acc ∨ ∃ variant ∈ variants,
      (pr.1 = variant.id ∧ ∃ num, assocGet media_map num = some pr.2) := by
  intro variants
  induction variants with
  | nil => intro acc pr hpr; exact Or.inl hpr
  | cons v t ih =>
    intro acc pr hpr
    rw [List.foldl_cons] at hpr
    rcases ih _ pr hpr with hstep | ⟨var, hvar, hrest⟩
    · rcases associate_step_mem media_map image_sku_mapping image_data_map acc v pr hstep with
        hacc | hnew
      · exact Or.inl hacc
      · exact Or.inr ⟨v, List.mem_cons_self _ _, hnew⟩
    · exact Or.inr ⟨var, List.mem_cons_of_mem _ hvar, hrest⟩

/-- C9 (amended).  Variant-image binding: the media map built from the
uploaded media labels is keyed by the parsed variation number alone — a
lookup resolves to the LAST uploaded media whose label parses to that
number, whatever key its label starts with; the chosen record of a
variant is the variation-1 record, or the first record when none has
variation 1; and every issued bind update names a returned variant and
an uploaded media node — a variant failing any lookup is skipped and
contributes nothing, never an error. -/
theorem c9_variant_image_binding (media_nodes : List (String × String))
    (variants : List RemoteVariant) (image_sku_mapping : List (String × String))
    (image_data_map : List (String × List ImageData)) (n : Int)
    (images : List ImageData) (img : ImageData) :
    (assocGet (get_product_media_map media_nodes) n = lastMediaWithVariation media_nodes n)
    ∧ (choose_primary images = some img →
        img ∈ images
        ∧ (img.variation_number = 1
           ∨ (images.head? = some img ∧ ∀ i ∈ images, i.variation_number ≠ 1)))
    ∧ (∀ pr ∈ associate_images_to_variants media_nodes variants image_sku_mapping image_data_map,
        (∃ variant ∈ variants, pr.1 = variant.id)
        ∧ (∃ node ∈ media_nodes, node.1 = pr.2)) := by
  have hmm : ∀ n' : Int, assocGet (get_product_media_map media_nodes) n'
      = lastMediaWithVariation media_nodes n' := by
    intro n'
    unfold get_product_media_map lastMediaWithVariation
    rw [media_map_fold media_nodes [] n']
    cases hf : media_nodes.reverse.find? (fun node => parse_alt_variation node.2 == some n') with
    | some nd => simp [hf]
    | none => simp [hf, assocGet]
  refine ⟨hmm n, choose_primary_spec images img, ?_⟩
  intro pr hpr
  unfold associate_images_to_variants at hpr
  by_cases hempty : get_product_media_map media_nodes = []
  · rw [if_pos hempty] at hpr
    simp at hpr
  · rw [if_neg hempty] at hpr
    rcases associate_fold_mem (get_product_media_map media_nodes)
        image_sku_mapping image_data_map variants [] pr hpr with habs | ⟨var, hvar, hid, num, hnum⟩
    · simp at habs
    · refine ⟨⟨var, hvar, hid⟩, ?_⟩
      rw [hmm num] at hnum
      unfold lastMediaWithVariation at hnum
      cases hf : media_nodes.reverse.find?
          (fun node => parse_alt_variation node.2 == some num) with
      | none => rw [hf] at hnum; simp at hnum
      | some nd =>
        rw [hf] at hnum
        have hnd : nd.1 = pr.2 := by simpa using hnum
        exact ⟨nd, List.mem_reverse.1 (List.mem_of_find?_eq_some hf), hnd⟩

/-- C9 witness: the three conjuncts of the binding theorem applied to
the mixed-key fixture: the media lookup for variation 1, the primary
choice on the single record of key "B", and the provenance of the one
emitted bind update. -/
theorem c9_variant_image_binding_witness :
    assocGet (get_product_media_map mixedMediaNodes) 1
      = lastMediaWithVariation mixedMediaNodes 1
    ∧ (imgKeyB ∈ [imgKeyB]
       ∧ (imgKeyB.variation_number = 1
          ∨ ([imgKeyB].head? = some imgKeyB ∧ ∀ i ∈ [imgKeyB], i.variation_number ≠ 1)))
    ∧ ((∃ variant ∈ [remoteVariant1], ("v1", "gidB").1 = variant.id)
       ∧ (∃ node ∈ mixedMediaNodes, node.1 = ("v1", "gidB").2)) :=
  ⟨(c9_variant_image_binding mixedMediaNodes [remoteVariant1] mappingS1A dataMapAB 1
      [imgKeyB] imgKeyB).1,
   (c9_variant_image_binding mixedMediaNodes [remoteVariant1] mappingS1A dataMapAB 1
      [imgKeyB] imgKeyB).2.1 (by decide),
   (c9_variant_image_binding mixedMediaNodes [remoteVariant1] mappingS1A dataMapAB 1
      [imgKeyB] imgKeyB).2.2 ("v1", "gidB") (by decide)⟩

/-- C9 counterexample to the claim as stated: with media of the two keys
"A" and "B" on one product, the variant whose image key is "A" — whose
chosen record is the variation-1 record of key "A" — is bound to the
media id "gidB", the media whose label names key "B": matching is by
variation number only, and the later key "B" node overwrote the key "A"
node under number 1. -/
theorem c9_binds_other_keys_media :
    associate_images_to_variants mixedMediaNodes [remoteVariant1] mappingS1A dataMapAB
      = [("v1", "gidB")]
    ∧ strAssocGet mappingS1A "s1" = some "A"
    ∧ choose_primary (imgAssocGetD dataMapAB "A") = some imgKeyA
    ∧ imgKeyA.image_sku = "A"
    ∧ ("gidB", "B - Image 1") ∈ mixedMediaNodes
    ∧ ("gidA", "A - Image 1") ∈ mixedMediaNodes
    ∧ "gidB" ≠ "gidA" := by
  decide
